import Mathlib

/-!
# Verification of the GCC decision-log classification engine

Shallow embedding of `webrtc_config_results/plot_gcc_decision_analysis_vertical.py`
(class `GccDecisionAnalyzer`): the line-pattern registry, the timestamp
resolver, the classifier chain of `parse_log_file`, and the post-processing
maps used by `plot_gcc_decision_metrics`.

Modelling conventions:
* a log line is a `List Char` (Python reads the file in universal-newline
  text mode; `splitLines` below reproduces the line splitting, and lines are
  modelled without their trailing newline, which no pattern can consume);
* each `re.compile(...).search(line)` is translated to a deterministic
  matcher `scanP pat` that tries the pattern at every start position
  (leftmost match), with greedy character-class repetition `(\d+)`, `(\w+)`,
  `([^,]+)`, `([^%]+)`, `(.+)` as maximal munch and the lazy `.*?lit` as
  "skip to the leftmost occurrence of `lit`" — faithful to Python's
  leftmost-match semantics on these alternation-free patterns;
* Python floats are modelled exactly (`PyFloat` with `nan`/`inf`/rational
  value, no binary rounding, no underscore literals), `int()` truncation is
  `pyTrunc`, and uncaught `ValueError`/`OverflowError`/`UnicodeDecodeError`
  are the constructors of `PyError`;
* the `open(..., encoding='utf-8')` default strict decoder is
  `utf8DecodeStrict` (a UTF-8 DFA rejecting invalid sequences, overlongs and
  surrogates, as CPython's strict codec does).
-/

/-- Match a literal prefix; on success return the remaining characters.
Translation of a literal regex fragment. -/
def matchLit : List Char → List Char → Option (List Char)
  | [], cs => some cs
  | _ :: _, [] => none
  | l :: ls, c :: cs => if c = l then matchLit ls cs else none

/-- Maximal munch of a character class: split into longest prefix satisfying
`p` and the rest. -/
def takeWhileSplit (p : Char → Bool) : List Char → List Char × List Char
  | [] => ([], [])
  | c :: cs =>
    if p c then
      let r := takeWhileSplit p cs
      (c :: r.1, r.2)
    else ([], c :: cs)

/-- Numeric value of a digit string, as `int()` reads a `(\d+)` capture. -/
def digitsVal (ds : List Char) : Nat :=
  ds.foldl (fun a c => 10 * a + (c.toNat - 48)) 0

/-- `(\d+)` capture: one-or-more digits (maximal munch), returning the value
and the rest of the line. -/
def digits1 (cs : List Char) : Option (Nat × List Char) :=
  match takeWhileSplit Char.isDigit cs with
  | ([], _) => none
  | (ds, r) => some (digitsVal ds, r)

/-- A `\w` character (ASCII reading of Python's word class). -/
def isWordChar (c : Char) : Bool := c.isAlphanum || c = '_'

/-- `(\w+)` capture. -/
def word1 (cs : List Char) : Option (List Char × List Char) :=
  match takeWhileSplit isWordChar cs with
  | ([], _) => none
  | (ws, r) => some (ws, r)

/-- `([^,]+)` capture. -/
def nonComma1 (cs : List Char) : Option (List Char × List Char) :=
  match takeWhileSplit (fun c => !(c = ',')) cs with
  | ([], _) => none
  | (ws, r) => some (ws, r)

/-- `([^%]+)` capture. -/
def nonPercent1 (cs : List Char) : Option (List Char × List Char) :=
  match takeWhileSplit (fun c => !(c = '%')) cs with
  | ([], _) => none
  | (ws, r) => some (ws, r)

/-- `(.+)` capture at end of pattern: the whole (nonempty) rest of the line. -/
def any1 (cs : List Char) : Option (List Char) :=
  match cs with
  | [] => none
  | _ :: _ => some cs

/-- Anchored pattern application: a literal prefix followed by a continuation
parser. Every registry pattern starts with a `[`-bracketed literal tag. -/
def patAt (anchor : List Char) (k : List Char → Option α) (cs : List Char) :
    Option α :=
  match matchLit anchor cs with
  | some r => k r
  | none => none

/-- `re.search` position loop: try the pattern at every start position,
left to right (leftmost match). -/
def scanP (f : List Char → Option α) : List Char → Option α
  | [] => f []
  | c :: cs =>
    match f (c :: cs) with
    | some r => some r
    | none => scanP f cs

/-- Lazy gap `.*?lit`: skip to the leftmost occurrence of the literal and
return what follows it. -/
def findAfter (lit : List Char) : List Char → Option (List Char)
  | [] => matchLit lit []
  | c :: cs =>
    match matchLit lit (c :: cs) with
    | some r => some r
    | none => findAfter lit cs

/-! ## Python float model -/

/-- An exact rational as an explicit fraction (denominator kept positive by
construction; fractions are not reduced, so all operations stay
kernel-computable). -/
structure PyRat where
  num : ℤ
  den : ℤ
deriving DecidableEq

/-- A CPython float as stored by `float(text)`: NaN, signed infinity, or an
exact (unrounded) rational value. -/
inductive PyFloat
  | nan
  | inf (neg : Bool)
  | fin (q : PyRat)
deriving DecidableEq

def pyRatMul (a b : PyRat) : PyRat := ⟨a.num * b.num, a.den * b.den⟩

/-- Exact `<` on fractions with positive denominators. -/
def pyRatLt (a b : PyRat) : Bool := decide (a.num * b.den < b.num * a.den)

/-- Python whitespace characters stripped by `str.strip()` (ASCII part). -/
def isPySpace (c : Char) : Bool :=
  c = ' ' || c = '\t' || c = '\n' || c = '\r' || c = '\x0b' || c = '\x0c'

/-- `str.strip()`. -/
def pyStrip (cs : List Char) : List Char :=
  ((cs.dropWhile isPySpace).reverse.dropWhile isPySpace).reverse

/-- `str.rstrip(',')`. -/
def rstripCommas (cs : List Char) : List Char :=
  (cs.reverse.dropWhile (fun c => c = ',')).reverse

/-- `str.split(',')`. -/
def splitComma : List Char → List (List Char)
  | [] => [[]]
  | c :: rest =>
    if c = ',' then [] :: splitComma rest
    else
      match splitComma rest with
      | [] => [[c]]
      | t :: ts => (c :: t) :: ts

/-- Exponent part of `float(text)` after the mantissa digits: the decimal
exponent scales the numerator (positive exponent) or denominator (negative
exponent). -/
def parseExpPart (neg : Bool) (m : PyRat) (rest : List Char) : Option PyFloat :=
  let signed : PyRat → PyFloat := fun q => .fin (if neg then ⟨-q.num, q.den⟩ else q)
  match rest with
  | [] => some (signed m)
  | e :: r =>
    if e = 'e' ∨ e = 'E' then
      let (eneg, r1) :=
        match r with
        | '+' :: r' => (false, r')
        | '-' :: r' => (true, r')
        | r' => (false, r')
      match takeWhileSplit Char.isDigit r1 with
      | ([], _) => none
      | (eds, r2) =>
        if r2 = [] then
          let p : ℤ := (10 : ℤ) ^ digitsVal eds
          some (signed (if eneg then ⟨m.num, m.den * p⟩ else ⟨m.num * p, m.den⟩))
        else none
    else none

/-- Decimal part of `float(text)`: `digits [. digits] [exponent]` with at
least one mantissa digit; `a.b` is the fraction `(a·10^|b| + b) / 10^|b|`. -/
def parseDecimal (neg : Bool) (t : List Char) : Option PyFloat :=
  let (ip, r1) := takeWhileSplit Char.isDigit t
  match r1 with
  | '.' :: r =>
    match takeWhileSplit Char.isDigit r with
    | (fp, r2) =>
      if ip = [] ∧ fp = [] then none
      else
        parseExpPart neg
          ⟨(digitsVal ip : ℤ) * (10 : ℤ) ^ fp.length + (digitsVal fp : ℤ),
            (10 : ℤ) ^ fp.length⟩ r2
  | _ =>
    if ip = [] then none
    else parseExpPart neg ⟨(digitsVal ip : ℤ), 1⟩ r1

/-- `float(text)`: strip whitespace, optional sign, then `nan`/`inf`/
`infinity` (case-insensitive) or a decimal literal; `none` models a raised
`ValueError`. -/
def pyFloatParse (cs : List Char) : Option PyFloat :=
  let t := pyStrip cs
  let (neg, t1) :=
    match t with
    | '+' :: r => (false, r)
    | '-' :: r => (true, r)
    | r => (false, r)
  let low := t1.map Char.toLower
  if low = "nan".data then some PyFloat.nan
  else if low = "inf".data ∨ low = "infinity".data then some (.inf neg)
  else parseDecimal neg t1

/-- Python `>` on floats: any comparison with NaN is false. -/
def pyGtB : PyFloat → PyFloat → Bool
  | .nan, _ => false
  | _, .nan => false
  | .inf n1, .inf n2 => !n1 && n2
  | .inf n, .fin _ => !n
  | .fin _, .inf n => n
  | .fin a, .fin b => pyRatLt b a

/-- Python `max(xs)`: first element as the running best, replaced whenever a
later item compares greater. -/
def pyMaxList (x : PyFloat) (xs : List PyFloat) : PyFloat :=
  xs.foldl (fun cur it => if pyGtB it cur then it else cur) x

/-- Multiply a float by an exact rational constant. -/
def pyMul (f : PyFloat) (q : PyRat) : PyFloat :=
  match f with
  | .nan => .nan
  | .inf n => if q.num = 0 then .nan else if q.num < 0 then .inf (!n) else .inf n
  | .fin a => .fin (pyRatMul a q)

/-- Uncaught Python exceptions that can escape `parse_log_file`. -/
inductive PyError
  | unicodeDecodeError
  | valueError
  | overflowError
deriving DecidableEq

/-- Truncation toward zero, as `int(float)`: T-division of the numerator by
the (positive) denominator. -/
def pyTrunc (q : PyRat) : ℤ := Int.tdiv q.num q.den

/-- `int(f)`: raises on NaN (`ValueError`) and infinity (`OverflowError`). -/
def pyToInt : PyFloat → Except PyError ℤ
  | .nan => .error .valueError
  | .inf _ => .error .overflowError
  | .fin q => .ok (pyTrunc q)

/-! ## Pattern registry (translations of `self.patterns`) -/

/-- Captures of the `decision` pattern
`\[GCC-DECISION-SNAPSHOT\] at (\d+)ms \| DelayState: (\w+), DelayTargetBps:
(\d+) \| RttBackoff: (\w+) \| ProbeResultBps: (\d+) \| BweTargetBps: (\d+)
\| AckedBitrateBps: (\d+) \| FinalTargetBps: (\d+) \| DecisionReason: (\w+)
\| Updated: (\w+)`. -/
structure DecisionCaps where
  atMs : Nat
  delayState : List Char
  delayTargetBps : Nat
  rttBackoff : List Char
  probeResultBps : Nat
  bweTargetBps : Nat
  ackedBitrateBps : Nat
  finalTargetBps : Nat
  decisionReason : List Char
  updated : List Char
deriving DecidableEq

/-- Continuation of the `decision` pattern after its anchor literal. -/
def decisionK (r0 : List Char) : Option DecisionCaps :=
  match digits1 r0 with
  | none => none
  | some (t, r1) =>
  match matchLit "ms | DelayState: ".data r1 with
  | none => none
  | some r2 =>
  match word1 r2 with
  | none => none
  | some (ds, r3) =>
  match matchLit ", DelayTargetBps: ".data r3 with
  | none => none
  | some r4 =>
  match digits1 r4 with
  | none => none
  | some (dt, r5) =>
  match matchLit " | RttBackoff: ".data r5 with
  | none => none
  | some r6 =>
  match word1 r6 with
  | none => none
  | some (rb, r7) =>
  match matchLit " | ProbeResultBps: ".data r7 with
  | none => none
  | some r8 =>
  match digits1 r8 with
  | none => none
  | some (pr, r9) =>
  match matchLit " | BweTargetBps: ".data r9 with
  | none => none
  | some r10 =>
  match digits1 r10 with
  | none => none
  | some (bt, r11) =>
  match matchLit " | AckedBitrateBps: ".data r11 with
  | none => none
  | some r12 =>
  match digits1 r12 with
  | none => none
  | some (ab, r13) =>
  match matchLit " | FinalTargetBps: ".data r13 with
  | none => none
  | some r14 =>
  match digits1 r14 with
  | none => none
  | some (ft, r15) =>
  match matchLit " | DecisionReason: ".data r15 with
  | none => none
  | some r16 =>
  match word1 r16 with
  | none => none
  | some (dr, r17) =>
  match matchLit " | Updated: ".data r17 with
  | none => none
  | some r18 =>
  match word1 r18 with
  | none => none
  | some (u, _) => some ⟨t, ds, dt, rb, pr, bt, ab, ft, dr, u⟩

def decisionAt : List Char → Option DecisionCaps :=
  patAt "[GCC-DECISION-SNAPSHOT] at ".data decisionK

def decisionSearch : List Char → Option DecisionCaps := scanP decisionAt

/-- `trendline`: `\[Trendline\] Time: (\d+) ms.*?Modified trend: ([^,]+),
Threshold: ([^,]+), State: (\w+)`; captures (time, trend text, threshold
text, state word). -/
def trendlineK (r0 : List Char) : Option (Nat × List Char × List Char × List Char) :=
  match digits1 r0 with
  | none => none
  | some (t, r1) =>
  match matchLit " ms".data r1 with
  | none => none
  | some r2 =>
  match findAfter "Modified trend: ".data r2 with
  | none => none
  | some r3 =>
  match nonComma1 r3 with
  | none => none
  | some (mt, r4) =>
  match matchLit ", Threshold: ".data r4 with
  | none => none
  | some r5 =>
  match nonComma1 r5 with
  | none => none
  | some (th, r6) =>
  match matchLit ", State: ".data r6 with
  | none => none
  | some r7 =>
  match word1 r7 with
  | none => none
  | some (st, _) => some (t, mt, th, st)

def trendlineAt : List Char → Option (Nat × List Char × List Char × List Char) :=
  patAt "[Trendline] Time: ".data trendlineK

def trendlineSearch : List Char → Option (Nat × List Char × List Char × List Char) :=
  scanP trendlineAt

/-- `rtt_bwe`: `\[RttBWE-Update\] Time: (\d+) ms, PropagationRtt: (\d+) ms,
CorrectedRtt: (\d+) ms, RttLimit: (\d+) ms, AboveLimit: (\w+)`. -/
def rttK (r0 : List Char) : Option (Nat × Nat × Nat × Nat × List Char) :=
  match digits1 r0 with
  | none => none
  | some (t, r1) =>
  match matchLit " ms, PropagationRtt: ".data r1 with
  | none => none
  | some r2 =>
  match digits1 r2 with
  | none => none
  | some (p, r3) =>
  match matchLit " ms, CorrectedRtt: ".data r3 with
  | none => none
  | some r4 =>
  match digits1 r4 with
  | none => none
  | some (c, r5) =>
  match matchLit " ms, RttLimit: ".data r5 with
  | none => none
  | some r6 =>
  match digits1 r6 with
  | none => none
  | some (l, r7) =>
  match matchLit " ms, AboveLimit: ".data r7 with
  | none => none
  | some r8 =>
  match word1 r8 with
  | none => none
  | some (a, _) => some (t, p, c, l, a)

def rttAt : List Char → Option (Nat × Nat × Nat × Nat × List Char) :=
  patAt "[RttBWE-Update] Time: ".data rttK

def rttSearch : List Char → Option (Nat × Nat × Nat × Nat × List Char) :=
  scanP rttAt

/-- `loss_bwe`: `\[LossBWE-Estimate\] Time: (\d+) ms, State: (\d+),
Bandwidth: (\d+) bps, Observations: (\d+)`. -/
def lossK (r0 : List Char) : Option (Nat × Nat × Nat × Nat) :=
  match digits1 r0 with
  | none => none
  | some (t, r1) =>
  match matchLit " ms, State: ".data r1 with
  | none => none
  | some r2 =>
  match digits1 r2 with
  | none => none
  | some (st, r3) =>
  match matchLit ", Bandwidth: ".data r3 with
  | none => none
  | some r4 =>
  match digits1 r4 with
  | none => none
  | some (bw, r5) =>
  match matchLit " bps, Observations: ".data r5 with
  | none => none
  | some r6 =>
  match digits1 r6 with
  | none => none
  | some (obs, _) => some (t, st, bw, obs)

def lossAt : List Char → Option (Nat × Nat × Nat × Nat) :=
  patAt "[LossBWE-Estimate] Time: ".data lossK

def lossSearch : List Char → Option (Nat × Nat × Nat × Nat) := scanP lossAt

/-- `loss_candidates`: `\[LossBWE-Candidates\] Time: (\d+) ms, Candidate
Bandwidths \(kbps\): (.+)`. -/
def candidatesK (r0 : List Char) : Option (Nat × List Char) :=
  match digits1 r0 with
  | none => none
  | some (t, r1) =>
  match matchLit " ms, Candidate Bandwidths (kbps): ".data r1 with
  | none => none
  | some r2 =>
  match any1 r2 with
  | none => none
  | some text => some (t, text)

def candidatesAt : List Char → Option (Nat × List Char) :=
  patAt "[LossBWE-Candidates] Time: ".data candidatesK

def candidatesSearch : List Char → Option (Nat × List Char) := scanP candidatesAt

/-- `probe_result`: `\[ProbeBWE-Result\] Time: (\d+) ms, Cluster ID: (\d+),
Final estimate: (\d+) bps`. -/
def probeResultK (r0 : List Char) : Option (Nat × Nat × Nat) :=
  match digits1 r0 with
  | none => none
  | some (t, r1) =>
  match matchLit " ms, Cluster ID: ".data r1 with
  | none => none
  | some r2 =>
  match digits1 r2 with
  | none => none
  | some (cid, r3) =>
  match matchLit ", Final estimate: ".data r3 with
  | none => none
  | some r4 =>
  match digits1 r4 with
  | none => none
  | some (est, r5) =>
  match matchLit " bps".data r5 with
  | none => none
  | some _ => some (t, cid, est)

def probeResultAt : List Char → Option (Nat × Nat × Nat) :=
  patAt "[ProbeBWE-Result] Time: ".data probeResultK

def probeResultSearch : List Char → Option (Nat × Nat × Nat) := scanP probeResultAt

/-- `probe_success`: `\[ProbeBWE-Success\] Time: (\d+) ms, Cluster ID: (\d+),
Send rate: (\d+) bps`. -/
def probeSuccessK (r0 : List Char) : Option (Nat × Nat × Nat) :=
  match digits1 r0 with
  | none => none
  | some (t, r1) =>
  match matchLit " ms, Cluster ID: ".data r1 with
  | none => none
  | some r2 =>
  match digits1 r2 with
  | none => none
  | some (cid, r3) =>
  match matchLit ", Send rate: ".data r3 with
  | none => none
  | some r4 =>
  match digits1 r4 with
  | none => none
  | some (est, r5) =>
  match matchLit " bps".data r5 with
  | none => none
  | some _ => some (t, cid, est)

def probeSuccessAt : List Char → Option (Nat × Nat × Nat) :=
  patAt "[ProbeBWE-Success] Time: ".data probeSuccessK

def probeSuccessSearch : List Char → Option (Nat × Nat × Nat) := scanP probeSuccessAt

/-- `probe_result_old` (legacy, no timestamp): `\[ProbeBWE-Result\] Cluster
ID: (\d+), Final estimate: (\d+) bps`. -/
def probeResultOldK (r0 : List Char) : Option (Nat × Nat) :=
  match digits1 r0 with
  | none => none
  | some (cid, r1) =>
  match matchLit ", Final estimate: ".data r1 with
  | none => none
  | some r2 =>
  match digits1 r2 with
  | none => none
  | some (est, r3) =>
  match matchLit " bps".data r3 with
  | none => none
  | some _ => some (cid, est)

def probeResultOldAt : List Char → Option (Nat × Nat) :=
  patAt "[ProbeBWE-Result] Cluster ID: ".data probeResultOldK

def probeResultOldSearch : List Char → Option (Nat × Nat) := scanP probeResultOldAt

/-- `probe_success_old` (legacy, no timestamp): `\[ProbeBWE-Success\] Cluster
ID: (\d+), Send rate: (\d+) bps`. -/
def probeSuccessOldK (r0 : List Char) : Option (Nat × Nat) :=
  match digits1 r0 with
  | none => none
  | some (cid, r1) =>
  match matchLit ", Send rate: ".data r1 with
  | none => none
  | some r2 =>
  match digits1 r2 with
  | none => none
  | some (est, r3) =>
  match matchLit " bps".data r3 with
  | none => none
  | some _ => some (cid, est)

def probeSuccessOldAt : List Char → Option (Nat × Nat) :=
  patAt "[ProbeBWE-Success] Cluster ID: ".data probeSuccessOldK

def probeSuccessOldSearch : List Char → Option (Nat × Nat) := scanP probeSuccessOldAt

/-- Captures of `constraint_apply`: `\[BWE-ConstraintApply\] Time: (\d+) ms,
Original: (\d+) bps, UpperLimit: (\d+) bps, AfterUpper: (\d+) bps,
MinConfig: (\d+) bps, Final: (\d+) bps, DelayLimit: (\d+) bps,
ReceiverLimit: (\d+) bps, MaxConfig: (\d+) bps`. -/
structure ConstraintCaps where
  timestamp : Nat
  original : Nat
  upperLimit : Nat
  afterUpper : Nat
  minConfig : Nat
  final : Nat
  delayLimit : Nat
  receiverLimit : Nat
  maxConfig : Nat
deriving DecidableEq

def constraintK (r0 : List Char) : Option ConstraintCaps :=
  match digits1 r0 with
  | none => none
  | some (t, r1) =>
  match matchLit " ms, Original: ".data r1 with
  | none => none
  | some r2 =>
  match digits1 r2 with
  | none => none
  | some (o, r3) =>
  match matchLit " bps, UpperLimit: ".data r3 with
  | none => none
  | some r4 =>
  match digits1 r4 with
  | none => none
  | some (ul, r5) =>
  match matchLit " bps, AfterUpper: ".data r5 with
  | none => none
  | some r6 =>
  match digits1 r6 with
  | none => none
  | some (au, r7) =>
  match matchLit " bps, MinConfig: ".data r7 with
  | none => none
  | some r8 =>
  match digits1 r8 with
  | none => none
  | some (mc, r9) =>
  match matchLit " bps, Final: ".data r9 with
  | none => none
  | some r10 =>
  match digits1 r10 with
  | none => none
  | some (f, r11) =>
  match matchLit " bps, DelayLimit: ".data r11 with
  | none => none
  | some r12 =>
  match digits1 r12 with
  | none => none
  | some (dl, r13) =>
  match matchLit " bps, ReceiverLimit: ".data r13 with
  | none => none
  | some r14 =>
  match digits1 r14 with
  | none => none
  | some (rl, r15) =>
  match matchLit " bps, MaxConfig: ".data r15 with
  | none => none
  | some r16 =>
  match digits1 r16 with
  | none => none
  | some (xc, r17) =>
  match matchLit " bps".data r17 with
  | none => none
  | some _ => some ⟨t, o, ul, au, mc, f, dl, rl, xc⟩

def constraintAt : List Char → Option ConstraintCaps :=
  patAt "[BWE-ConstraintApply] Time: ".data constraintK

def constraintSearch : List Char → Option ConstraintCaps := scanP constraintAt

/-- `delay_limit`: `\[BWE-DelayLimit\] Time: (\d+) ms, OldLimit: (\d+) bps,
NewLimit: (\d+) bps, CurrentTarget: (\d+) bps`. -/
def limitK (r0 : List Char) : Option (Nat × Nat × Nat × Nat) :=
  match digits1 r0 with
  | none => none
  | some (t, r1) =>
  match matchLit " ms, OldLimit: ".data r1 with
  | none => none
  | some r2 =>
  match digits1 r2 with
  | none => none
  | some (ol, r3) =>
  match matchLit " bps, NewLimit: ".data r3 with
  | none => none
  | some r4 =>
  match digits1 r4 with
  | none => none
  | some (nl, r5) =>
  match matchLit " bps, CurrentTarget: ".data r5 with
  | none => none
  | some r6 =>
  match digits1 r6 with
  | none => none
  | some (ct, r7) =>
  match matchLit " bps".data r7 with
  | none => none
  | some _ => some (t, ol, nl, ct)

def delayLimitAt : List Char → Option (Nat × Nat × Nat × Nat) :=
  patAt "[BWE-DelayLimit] Time: ".data limitK

def delayLimitSearch : List Char → Option (Nat × Nat × Nat × Nat) := scanP delayLimitAt

/-- `receiver_limit`: `\[BWE-ReceiverLimit\] Time: (\d+) ms, OldLimit: (\d+)
bps, NewLimit: (\d+) bps, CurrentTarget: (\d+) bps`. -/
def receiverLimitAt : List Char → Option (Nat × Nat × Nat × Nat) :=
  patAt "[BWE-ReceiverLimit] Time: ".data limitK

def receiverLimitSearch : List Char → Option (Nat × Nat × Nat × Nat) :=
  scanP receiverLimitAt

/-- `pushback`: `\[BWE-CongestionWindowPushback\] Time: (\d+) ms,
OriginalRate: (\d+) bps, PushbackRate: (\d+) bps, MinBitrate: (\d+) bps,
Reduction: (\d+) bps, ReductionRatio: ([^%]+)%`. -/
def pushbackK (r0 : List Char) : Option (Nat × Nat × Nat × Nat × Nat × List Char) :=
  match digits1 r0 with
  | none => none
  | some (t, r1) =>
  match matchLit " ms, OriginalRate: ".data r1 with
  | none => none
  | some r2 =>
  match digits1 r2 with
  | none => none
  | some (orr, r3) =>
  match matchLit " bps, PushbackRate: ".data r3 with
  | none => none
  | some r4 =>
  match digits1 r4 with
  | none => none
  | some (pb, r5) =>
  match matchLit " bps, MinBitrate: ".data r5 with
  | none => none
  | some r6 =>
  match digits1 r6 with
  | none => none
  | some (mb, r7) =>
  match matchLit " bps, Reduction: ".data r7 with
  | none => none
  | some r8 =>
  match digits1 r8 with
  | none => none
  | some (red, r9) =>
  match matchLit " bps, ReductionRatio: ".data r9 with
  | none => none
  | some r10 =>
  match nonPercent1 r10 with
  | none => none
  | some (ratio, r11) =>
  match matchLit "%".data r11 with
  | none => none
  | some _ => some (t, orr, pb, mb, red, ratio)

def pushbackAt : List Char → Option (Nat × Nat × Nat × Nat × Nat × List Char) :=
  patAt "[BWE-CongestionWindowPushback] Time: ".data pushbackK

def pushbackSearch : List Char → Option (Nat × Nat × Nat × Nat × Nat × List Char) :=
  scanP pushbackAt

/-! ## Timestamp Resolver

`re.search(r'Time: (\d+) ms|at (\d+) ms', line)` followed by
`last_timestamp = int(group(1) or group(2))`. -/

/-- One alternation arm at a fixed position: literal, `(\d+)`, then ` ms`. -/
def tsArm (lit : List Char) (cs : List Char) : Option Nat :=
  match matchLit lit cs with
  | none => none
  | some r =>
    match digits1 r with
    | none => none
    | some (v, r2) =>
      match matchLit " ms".data r2 with
      | some _ => some v
      | none => none

/-- Both alternation arms at a fixed position, first arm preferred. -/
def tsAt (cs : List Char) : Option Nat :=
  match tsArm "Time: ".data cs with
  | some v => some v
  | none => tsArm "at ".data cs

/-- The timestamp extraction search over the whole line. -/
def tsSearch : List Char → Option Nat := scanP tsAt

/-- Carry-forward update: any line carrying an explicit timestamp overwrites
the remembered one. -/
def resolveTs (old : Option Nat) (cs : List Char) : Option Nat :=
  match tsSearch cs with
  | some t => some t
  | none => old

/-- Python truthiness of `last_timestamp` (`None` and `0` are falsy), as
tested by `if probe_result_old_match and last_timestamp:`. -/
def truthyTs : Option Nat → Bool
  | none => false
  | some t => t != 0

/-! ## Series records and parse state -/

inductive ProbeSource
  | result
  | success
  | result_old
  | success_old
deriving DecidableEq

structure TrendRec where
  timestamp : Nat
  modified_trend : PyFloat
  threshold : PyFloat
  state : String
deriving DecidableEq

structure RttRec where
  timestamp : Nat
  corrected_rtt : Nat
  rtt_limit : Nat
  above_limit : Bool
deriving DecidableEq

/-- Loss-series record: `state = -1` is the sentinel marking a candidates
record; estimate records have no `candidates` field (`none`). -/
structure LossRec where
  timestamp : Nat
  state : ℤ
  bandwidth : ℤ
  observations : Nat
  candidates : Option (List PyFloat)
deriving DecidableEq

structure ProbeRec where
  timestamp : Nat
  cluster_id : Nat
  estimate : Nat
  source : ProbeSource
deriving DecidableEq

structure DecisionRec where
  timestamp : Nat
  decision_reason : String
deriving DecidableEq

structure LimitRec where
  timestamp : Nat
  old_limit : Nat
  new_limit : Nat
  current_target : Nat
deriving DecidableEq

structure ConfigLimitRec where
  min_old : Nat
  min_new : Nat
  max_old : Nat
  max_new : Nat
  current_target : Nat
deriving DecidableEq

structure PushbackRec where
  timestamp : Nat
  original_rate : Nat
  pushback_rate : Nat
  min_bitrate : Nat
  reduction : Nat
  reduction_ratio : PyFloat
deriving DecidableEq

/-- All mutable loop state of `parse_log_file`: the carry-forward timestamp
and the per-subsystem append-only series. `configLimit` mirrors
`config_limit_data`, which the loop never appends to. -/
structure ParseState where
  lastTimestamp : Option Nat
  trendline : List TrendRec
  rtt : List RttRec
  loss : List LossRec
  probe : List ProbeRec
  decision : List DecisionRec
  constraintApply : List ConstraintCaps
  delayLimit : List LimitRec
  receiverLimit : List LimitRec
  configLimit : List ConfigLimitRec
  pushback : List PushbackRec
deriving DecidableEq

/-- State at the start of every parse run (`last_timestamp = None`, all
series empty). -/
def initState : ParseState :=
  ⟨none, [], [], [], [], [], [], [], [], [], []⟩

/-- `modified_trend` value: `float(text) if text != 'nan' else 0.0`, with a
bare `except` substituting `0.0`. -/
def trendValOf (text : List Char) : PyFloat :=
  if text = "nan".data then .fin ⟨0, 1⟩
  else
    match pyFloatParse text with
    | some v => v
    | none => .fin ⟨0, 1⟩

/-- `threshold` value: `float(text)` with a bare `except` substituting `0.0`
(note `float('nan')` succeeds and yields NaN). -/
def threshValOf (text : List Char) : PyFloat :=
  match pyFloatParse text with
  | some v => v
  | none => .fin ⟨0, 1⟩

/-- Candidate list: `[float(x.strip().rstrip(',')) for x in text.split(',')
if x.strip().rstrip(',')]`; a token `float()` cannot read raises
`ValueError`. -/
def parseCandidates (text : List Char) : Except PyError (List PyFloat) :=
  let toks := (splitComma text).map fun x => rstripCommas (pyStrip x)
  let kept := toks.filter fun x => !(x = [])
  kept.mapM fun tok =>
    match pyFloatParse tok with
    | some v => Except.ok v
    | none => Except.error .valueError

/-- `int(max(candidates) * 1000) if candidates else 0`. -/
def candidateBandwidth : List PyFloat → Except PyError ℤ
  | [] => .ok 0
  | c :: cs => pyToInt (pyMul (pyMaxList c cs) ⟨1000, 1⟩)

/-- Tail of the classifier chain after the legacy probe fallbacks: decision
snapshot, constraint apply, delay limit, receiver limit, pushback; a line
matching nothing is skipped. -/
def processTail (s : ParseState) (cs : List Char) : Except PyError ParseState :=
  match decisionSearch cs with
  | some caps =>
    .ok { s with decision := s.decision ++ [⟨caps.atMs, String.mk caps.decisionReason⟩] }
  | none =>
  match constraintSearch cs with
  | some caps => .ok { s with constraintApply := s.constraintApply ++ [caps] }
  | none =>
  match delayLimitSearch cs with
  | some (t, ol, nl, ct) =>
    .ok { s with delayLimit := s.delayLimit ++ [⟨t, ol, nl, ct⟩] }
  | none =>
  match receiverLimitSearch cs with
  | some (t, ol, nl, ct) =>
    .ok { s with receiverLimit := s.receiverLimit ++ [⟨t, ol, nl, ct⟩] }
  | none =>
  match pushbackSearch cs with
  | some (t, orr, pb, mb, red, ratio) =>
    match pyFloatParse ratio with
    | some rr => .ok { s with pushback := s.pushback ++ [⟨t, orr, pb, mb, red, rr⟩] }
    | none => .error .valueError
  | none => .ok s

/-- Legacy `probe_success_old` fallback: emits only when `last_timestamp` is
truthy; otherwise (also on no match) control falls through to the tail
chain, exactly as the missing `continue` in the source lets it. -/
def processSuccessOld (s : ParseState) (cs : List Char) : Except PyError ParseState :=
  match probeSuccessOldSearch cs with
  | some (cid, est) =>
    if truthyTs s.lastTimestamp then
      .ok { s with probe := s.probe ++ [⟨s.lastTimestamp.getD 0, cid, est, .success_old⟩] }
    else processSuccessOld.fallthrough s cs
  | none => processSuccessOld.fallthrough s cs
where fallthrough (s : ParseState) (cs : List Char) : Except PyError ParseState :=
  processTail s cs

/-- Legacy `probe_result_old` fallback, same truthiness guard. -/
def processLegacy (s : ParseState) (cs : List Char) : Except PyError ParseState :=
  match probeResultOldSearch cs with
  | some (cid, est) =>
    if truthyTs s.lastTimestamp then
      .ok { s with probe := s.probe ++ [⟨s.lastTimestamp.getD 0, cid, est, .result_old⟩] }
    else processSuccessOld s cs
  | none => processSuccessOld s cs

/-- One iteration of the `for line in f` loop: resolver update, then the
pattern chain in source order (each matching branch appends one record and
`continue`s). -/
def processChars (s0 : ParseState) (cs : List Char) : Except PyError ParseState :=
  let s : ParseState := { s0 with lastTimestamp := resolveTs s0.lastTimestamp cs }
  match trendlineSearch cs with
  | some (t, mt, th, st) =>
    .ok { s with trendline :=
      s.trendline ++ [⟨t, trendValOf mt, threshValOf th, String.mk st⟩] }
  | none =>
  match rttSearch cs with
  | some (t, _p, c, l, a) =>
    .ok { s with rtt := s.rtt ++ [⟨t, c, l, a = "true".data⟩] }
  | none =>
  match lossSearch cs with
  | some (t, st, bw, obs) =>
    .ok { s with loss := s.loss ++ [⟨t, (st : ℤ), (bw : ℤ), obs, none⟩] }
  | none =>
  match candidatesSearch cs with
  | some (t, text) =>
    match parseCandidates text with
    | .error e => .error e
    | .ok cands =>
      match candidateBandwidth cands with
      | .error e => .error e
      | .ok bw =>
        .ok { s with loss := s.loss ++ [⟨t, -1, bw, cands.length, some cands⟩] }
  | none =>
  match probeResultSearch cs with
  | some (t, cid, est) =>
    .ok { s with probe := s.probe ++ [⟨t, cid, est, .result⟩] }
  | none =>
  match probeSuccessSearch cs with
  | some (t, cid, est) =>
    .ok { s with probe := s.probe ++ [⟨t, cid, est, .success⟩] }
  | none => processLegacy s cs

/-- The single forward pass over the (already split) lines. -/
def parse_lines (s : ParseState) : List (List Char) → Except PyError ParseState
  | [] => .ok s
  | l :: ls =>
    match processChars s l with
    | .ok s' => parse_lines s' ls
    | .error e => .error e

/-- Convenience entry point on string lines: each run starts from
`initState` (the `last_timestamp = None` reinitialization). -/
def parseLog (lines : List String) : Except PyError ParseState :=
  parse_lines initState (lines.map String.data)

/-! ## File reading: universal newlines and strict UTF-8 -/

/-- Universal-newline line splitting (`\n`, `\r\n`, `\r`), lines without
their terminator. -/
def splitLinesAux (acc : List Char) : List Char → List (List Char)
  | [] => if acc = [] then [] else [acc.reverse]
  | '\r' :: '\n' :: rest => acc.reverse :: splitLinesAux [] rest
  | '\r' :: rest => acc.reverse :: splitLinesAux [] rest
  | '\n' :: rest => acc.reverse :: splitLinesAux [] rest
  | c :: rest => splitLinesAux (c :: acc) rest

def splitLines (cs : List Char) : List (List Char) := splitLinesAux [] cs

/-- Strict UTF-8 decoder DFA step state: continuation bytes still expected,
accumulated codepoint, and the admissible range of the next byte (the
narrowed ranges reject overlong encodings and surrogates, as CPython's
strict `utf-8` codec does). -/
def utf8Run : Option (Nat × Nat × Nat × Nat) → List Nat → Option (List Char)
  | none, [] => some []
  | some _, [] => none
  | none, b :: bs =>
    if b < 0x80 then (utf8Run none bs).map (Char.ofNat b :: ·)
    else if b < 0xC2 then none
    else if b ≤ 0xDF then utf8Run (some (1, b - 0xC0, 0x80, 0xBF)) bs
    else if b = 0xE0 then utf8Run (some (2, 0, 0xA0, 0xBF)) bs
    else if b = 0xED then utf8Run (some (2, 0xD, 0x80, 0x9F)) bs
    else if b ≤ 0xEF then utf8Run (some (2, b - 0xE0, 0x80, 0xBF)) bs
    else if b = 0xF0 then utf8Run (some (3, 0, 0x90, 0xBF)) bs
    else if b ≤ 0xF3 then utf8Run (some (3, b - 0xF0, 0x80, 0xBF)) bs
    else if b = 0xF4 then utf8Run (some (3, 4, 0x80, 0x8F)) bs
    else none
  | some (n, acc, lo, hi), b :: bs =>
    if lo ≤ b ∧ b ≤ hi then
      if n = 1 then (utf8Run none bs).map (Char.ofNat (acc * 64 + (b - 0x80)) :: ·)
      else utf8Run (some (n - 1, acc * 64 + (b - 0x80), 0x80, 0xBF)) bs
    else none

/-- Strict decode of the whole byte stream; `none` models
`UnicodeDecodeError`. -/
def utf8DecodeStrict (bs : List Nat) : Option (List Char) := utf8Run none bs

/-- `parse_log_file` on raw file bytes: `open(path, 'r', encoding='utf-8')`
(default `errors='strict'`) then the line loop from `initState`. -/
def parse_log_file (bs : List Nat) : Except PyError ParseState :=
  match utf8DecodeStrict bs with
  | none => .error .unicodeDecodeError
  | some cs => parse_lines initState (splitLines cs)

/-! ## Post-processing (from `plot_gcc_decision_metrics`) -/

/-- The decision classifier `reason_map` followed by `.fillna(0)`: a total
map from reason token to priority rank. -/
def reasonRank (r : String) : Nat :=
  if r = "Hold" then 0
  else if r = "LossEstimate" then 1
  else if r = "ProbeResult" then 2
  else if r = "RttBackoff" then 3
  else if r = "DelayLimit" then 4
  else 0

/-- The derived decision timeline: `(timestamp, decision_numeric)` pairs in
arrival order. -/
def decisionTimeline (ds : List DecisionRec) : List (Nat × Nat) :=
  ds.map fun d => (d.timestamp, reasonRank d.decision_reason)

/-- `loss_df[loss_df['state'] >= 0]`: the per-state statistics input. -/
def estimates_df (loss : List LossRec) : List LossRec :=
  loss.filter fun r => decide (0 ≤ r.state)

/-- `loss_df[loss_df['state'] == -1]`: the candidate records. -/
def candidates_df (loss : List LossRec) : List LossRec :=
  loss.filter fun r => decide (r.state = -1)

/-- Total number of records appended across every series. -/
def totalEvents (s : ParseState) : Nat :=
  s.trendline.length + s.rtt.length + s.loss.length + s.probe.length +
  s.decision.length + s.constraintApply.length + s.delayLimit.length +
  s.receiverLimit.length + s.configLimit.length + s.pushback.length

/-! ## Generic search lemmas -/

theorem scanP_cons_some {α} {f : List Char → Option α} {c : Char} {cs : List Char}
    {r : α} (h : f (c :: cs) = some r) : scanP f (c :: cs) = some r := by
  simp [scanP, h]

theorem scanP_cons_none {α} {f : List Char → Option α} {c : Char} {cs : List Char}
    (h : f (c :: cs) = none) : scanP f (c :: cs) = scanP f cs := by
  simp [scanP, h]

theorem patAt_cons_none {α} {a' : List Char} {k : List Char → Option α} {c : Char}
    {cs : List Char} (h : ¬c = '[') : patAt ('[' :: a') k (c :: cs) = none := by
  simp [patAt, matchLit, h]

/-- A bracket-anchored pattern can match nowhere in a bracket-free string. -/
theorem scanP_patAt_bracketFree {α} (a' : List Char) (k : List Char → Option α) :
    ∀ cs : List Char, (∀ c ∈ cs, ¬c = '[') → scanP (patAt ('[' :: a') k) cs = none
  | [], _ => rfl
  | c :: cs, h => by
    rw [scanP_cons_none (patAt_cons_none (h c (by simp)))]
    exact scanP_patAt_bracketFree a' k cs fun x hx => h x (by simp [hx])

/-- Search failure for a bracket-anchored pattern on a line whose only `[` is
at position 0, where the pattern is known not to match. -/
theorem search_single_bracket {α} {a' : List Char} {k : List Char → Option α}
    {tail : List Char} (h0 : patAt ('[' :: a') k ('[' :: tail) = none)
    (hb : ∀ c ∈ tail, ¬c = '[') :
    scanP (patAt ('[' :: a') k) ('[' :: tail) = none := by
  rw [scanP_cons_none h0]
  exact scanP_patAt_bracketFree a' k tail hb

theorem matchLit_self (lit rest : List Char) : matchLit lit (lit ++ rest) = some rest := by
  induction lit with
  | nil => rfl
  | cons l ls ih => simp [matchLit, ih]

theorem takeWhileSplit_append {p : Char → Bool} (xs : List Char)
    (h : ∀ c ∈ xs, p c = true) {c : Char} (hc : p c = false) (r : List Char) :
    takeWhileSplit p (xs ++ c :: r) = (xs, c :: r) := by
  induction xs with
  | nil => simp [takeWhileSplit, hc]
  | cons x xs ih =>
    simp [takeWhileSplit, h x (by simp), ih fun y hy => h y (by simp [hy])]

theorem digits1_append {ds : List Char} (h1 : ds ≠ [])
    (h2 : ∀ c ∈ ds, c.isDigit = true) {c : Char} (hc : c.isDigit = false)
    (r : List Char) : digits1 (ds ++ c :: r) = some (digitsVal ds, c :: r) := by
  unfold digits1
  rw [takeWhileSplit_append ds h2 hc r]
  cases ds with
  | nil => exact absurd rfl h1
  | cons d ds => rfl

/-! ## Timestamp-resolver search lemmas

The checkers below decide, for a concrete prefix, that the resolver pattern
cannot match there whatever follows, so a search can be discharged segment
by segment on lines with symbolic digit fields. -/

/-- `litFailsIn lit cs = true` iff the literal already mismatches inside
`cs` (not merely running out of input). -/
def litFailsIn : List Char → List Char → Bool
  | [], _ => false
  | _ :: _, [] => false
  | l :: ls, c :: cs => if c = l then litFailsIn ls cs else true

theorem litFailsIn_sound : ∀ {lit cs : List Char}, litFailsIn lit cs = true →
    ∀ rest, matchLit lit (cs ++ rest) = none
  | [], _, h, _ => by simp [litFailsIn] at h
  | _ :: _, [], h, _ => by simp [litFailsIn] at h
  | l :: ls, c :: cs, h, rest => by
    by_cases hc : c = l
    · subst hc
      rw [litFailsIn, if_pos rfl] at h
      simpa [matchLit] using litFailsIn_sound h rest
    · simp [matchLit, hc]

theorem matchLit_some_append : ∀ {lit cs r : List Char},
    matchLit lit cs = some r → ∀ rest, matchLit lit (cs ++ rest) = some (r ++ rest)
  | [], cs, r, h, rest => by
    simp [matchLit] at h
    subst h
    rfl
  | _ :: _, [], _, h, _ => by simp [matchLit] at h
  | l :: ls, c :: cs, r, h, rest => by
    by_cases hc : c = l
    · subst hc
      rw [matchLit, if_pos rfl] at h
      simpa [matchLit] using matchLit_some_append h rest
    · rw [matchLit, if_neg hc] at h
      cases h

theorem takeWhileSplit_stuck_append {p : Char → Bool} :
    ∀ {cs ds r' : List Char} {c : Char}, takeWhileSplit p cs = (ds, c :: r') →
      ∀ rest, takeWhileSplit p (cs ++ rest) = (ds, c :: (r' ++ rest))
  | [], ds, r', c, h, rest => by simp [takeWhileSplit] at h
  | x :: xs, ds, r', c, h, rest => by
    by_cases hx : p x
    · rw [takeWhileSplit, if_pos hx] at h
      obtain ⟨h1, h2⟩ := Prod.mk.injEq .. ▸ h
      cases ds with
      | nil => cases h1
      | cons d ds =>
        obtain ⟨rfl, rfl⟩ : x = d ∧ (takeWhileSplit p xs).1 = ds := by
          constructor <;> [exact (List.cons.injEq .. ▸ h1).1; exact (List.cons.injEq .. ▸ h1).2]
        have hx2 : takeWhileSplit p xs = ((takeWhileSplit p xs).1, c :: r') := by
          rw [← h2]
        rw [List.cons_append, takeWhileSplit, if_pos hx,
          takeWhileSplit_stuck_append hx2 rest]
    · rw [takeWhileSplit, if_neg hx] at h
      obtain ⟨h1, h2⟩ := Prod.mk.injEq .. ▸ h
      subst h1
      cases h2
      rw [List.cons_append, takeWhileSplit, if_neg hx]

/-- Per-position failure checker for one resolver alternation arm: `true`
means the arm fails at this position however the string continues. -/
def tsArmFailsIn (lit : List Char) (cs : List Char) : Bool :=
  if litFailsIn lit cs then true
  else
    match matchLit lit cs with
    | none => false
    | some r =>
      match takeWhileSplit Char.isDigit r with
      | ([], []) => false
      | ([], _ :: _) => true
      | (_ :: _, []) => false
      | (_ :: _, c :: r') => litFailsIn " ms".data (c :: r')

theorem tsArmFailsIn_sound {lit cs : List Char} (h : tsArmFailsIn lit cs = true)
    (rest : List Char) : tsArm lit (cs ++ rest) = none := by
  unfold tsArmFailsIn at h
  by_cases hf : litFailsIn lit cs = true
  · unfold tsArm
    rw [litFailsIn_sound hf rest]
  · rw [if_neg hf] at h
    split at h
    next hm => cases h
    next r hm =>
      unfold tsArm
      rw [matchLit_some_append hm rest]
      split at h
      next hd => cases h
      next x xs hd =>
        simp only [digits1, takeWhileSplit_stuck_append hd rest]
      next d ds hd => cases h
      next d ds c r' hd =>
        simp only [digits1, takeWhileSplit_stuck_append hd rest]
        have hms := litFailsIn_sound h rest
        rw [List.cons_append] at hms
        simp [hms]

/-- Per-position failure checker for the whole resolver pattern. -/
def tsAtFailsIn (cs : List Char) : Bool :=
  tsArmFailsIn "Time: ".data cs && tsArmFailsIn "at ".data cs

theorem tsAtFailsIn_sound {cs : List Char} (h : tsAtFailsIn cs = true)
    (rest : List Char) : tsAt (cs ++ rest) = none := by
  unfold tsAtFailsIn at h
  obtain ⟨h1, h2⟩ := Bool.and_eq_true .. ▸ h
  unfold tsAt
  rw [tsArmFailsIn_sound h1 rest, tsArmFailsIn_sound h2 rest]

/-- Segment checker: the resolver fails at every position inside the
segment, whatever follows it. -/
def tsSegSafe (seg : List Char) : Bool :=
  (List.range seg.length).all fun i => tsAtFailsIn (seg.drop i)

theorem tsSearch_skip_seg : ∀ {seg : List Char}, tsSegSafe seg = true →
    ∀ rest, tsSearch (seg ++ rest) = tsSearch rest
  | [], _, rest => rfl
  | c :: seg, h, rest => by
    unfold tsSegSafe at h
    rw [List.all_eq_true] at h
    have h0 : tsAtFailsIn (c :: seg) = true := by
      simpa using h 0 (by simp [List.mem_range])
    have hrest : tsSegSafe seg = true := by
      rw [tsSegSafe, List.all_eq_true]
      intro i hi
      rw [List.mem_range] at hi
      simpa using h (i + 1) (by simp [List.mem_range]; omega)
    rw [List.cons_append]
    rw [show tsSearch (c :: (seg ++ rest)) = scanP tsAt (c :: (seg ++ rest)) from rfl]
    rw [scanP_cons_none (by simpa using tsAtFailsIn_sound h0 rest)]
    exact tsSearch_skip_seg hrest rest

theorem tsAt_cons_none_of_ne {c : Char} {cs : List Char} (h1 : ¬c = 'T')
    (h2 : ¬c = 'a') : tsAt (c :: cs) = none := by
  unfold tsAt tsArm
  rw [show "Time: ".data = 'T' :: "ime: ".data from rfl,
    show "at ".data = 'a' :: "t ".data from rfl]
  simp [matchLit, h1, h2]

theorem ne_of_digit {c x : Char} (h : c.isDigit = true) (hx : x.isDigit = false) :
    ¬c = x := by
  intro e
  subst e
  rw [h] at hx
  cases hx

theorem tsSearch_skip_digits : ∀ {ds : List Char}, (∀ c ∈ ds, c.isDigit = true) →
    ∀ rest, tsSearch (ds ++ rest) = tsSearch rest
  | [], _, rest => rfl
  | d :: ds, h, rest => by
    have hd := h d (by simp)
    rw [List.cons_append,
      show tsSearch (d :: (ds ++ rest)) = scanP tsAt (d :: (ds ++ rest)) from rfl,
      scanP_cons_none (tsAt_cons_none_of_ne (ne_of_digit hd (by decide))
        (ne_of_digit hd (by decide)))]
    exact tsSearch_skip_digits (fun c hc => h c (by simp [hc])) rest

/-- The `at <digits>ms` fragment of a decision snapshot: the resolver's
second arm consumes `at ` and the digits but then requires ` ms`, which the
snapshot's spaceless `ms` refuses. -/
theorem tsAt_at_digits_noSpaceMs {t rest : List Char} (h1 : t ≠ [])
    (h2 : ∀ c ∈ t, c.isDigit = true) :
    tsAt ('a' :: 't' :: ' ' :: (t ++ 'm' :: rest)) = none := by
  unfold tsAt tsArm
  rw [show "Time: ".data = 'T' :: "ime: ".data from rfl]
  rw [show matchLit ('T' :: "ime: ".data) ('a' :: 't' :: ' ' :: (t ++ 'm' :: rest)) =
    none from by simp [matchLit]]
  rw [show "at ".data = ['a', 't', ' '] from rfl]
  rw [show matchLit ['a', 't', ' '] ('a' :: 't' :: ' ' :: (t ++ 'm' :: rest)) =
    some (t ++ 'm' :: rest) from by simp [matchLit]]
  simp only [digits1_append h1 h2 (show Char.isDigit 'm' = false from by decide) rest]
  rfl

/-! ## Claims -/

/-- C2: the Decision Classifier maps each reasonToken to its rank by the
total function Hold=0, LossEstimate=1, ProbeResult=2, RttBackoff=3,
DelayLimit=4, and any token outside this set gets rank 0 (Hold) rather than
failing. -/
theorem c2_reason_rank_total :
    (∀ r : String,
      r ∉ ["Hold", "LossEstimate", "ProbeResult", "RttBackoff", "DelayLimit"] →
      reasonRank r = 0) ∧
    reasonRank "Hold" = 0 ∧ reasonRank "LossEstimate" = 1 ∧
    reasonRank "ProbeResult" = 2 ∧ reasonRank "RttBackoff" = 3 ∧
    reasonRank "DelayLimit" = 4 := by
  refine ⟨?_, rfl, rfl, rfl, rfl, rfl⟩
  intro r hr
  simp only [List.mem_cons, List.not_mem_nil, or_false, not_or] at hr
  obtain ⟨h1, h2, h3, h4, h5⟩ := hr
  simp [reasonRank, h1, h2, h3, h4, h5]

theorem c2_reason_rank_total_witness : reasonRank "SomethingElse" = 0 :=
  c2_reason_rank_total.1 "SomethingElse" (by decide)

/-- C7: a log with exactly one DelayLimit decision snapshot at 0 ms and one
RttBackoff decision snapshot at 500 ms yields the DecisionTimeline
[(0, 4), (500, 3)], in that order. -/
theorem c7_decision_timeline :
    (parseLog
      ["[GCC-DECISION-SNAPSHOT] at 0ms | DelayState: Normal, DelayTargetBps: 1000 | RttBackoff: false | ProbeResultBps: 0 | BweTargetBps: 1000 | AckedBitrateBps: 900 | FinalTargetBps: 800 | DecisionReason: DelayLimit | Updated: true",
       "[GCC-DECISION-SNAPSHOT] at 500ms | DelayState: Normal, DelayTargetBps: 1000 | RttBackoff: false | ProbeResultBps: 0 | BweTargetBps: 1000 | AckedBitrateBps: 900 | FinalTargetBps: 800 | DecisionReason: RttBackoff | Updated: true"]).map
      (fun st => (decisionTimeline st.decision, st.decision.length)) =
    .ok ([(0, 4), (500, 3)], 2) := rfl

/-- C8: parsing is deterministic across runs — the run is a pure function of
the file bytes, and the only carry-forward state (the last-known timestamp)
starts as unknown (`none`) in the state every run begins from. -/
theorem c8_idempotent :
    (∀ bs1 bs2 : List Nat, bs1 = bs2 → parse_log_file bs1 = parse_log_file bs2) ∧
    initState.lastTimestamp = none :=
  ⟨fun _ _ h => h ▸ rfl, rfl⟩

theorem c8_idempotent_witness :
    parse_log_file [84, 101, 115, 116] = parse_log_file [84, 101, 115, 116] :=
  c8_idempotent.1 [84, 101, 115, 116] [84, 101, 115, 116] rfl

/-- C6 (amended): the reader is strict, not substituting — a byte stream the
strict UTF-8 decoder rejects makes the whole run fail with a decode error,
and only byte streams it accepts are processed to completion. -/
theorem c6_strict_decoding :
    (∀ bs : List Nat, utf8DecodeStrict bs = none →
      parse_log_file bs = .error .unicodeDecodeError) ∧
    (∀ (bs : List Nat) (cs : List Char), utf8DecodeStrict bs = some cs →
      parse_log_file bs = parse_lines initState (splitLines cs)) := by
  constructor
  · intro bs h
    simp [parse_log_file, h]
  · intro bs cs h
    simp [parse_log_file, h]

theorem c6_strict_decoding_witness :
    utf8DecodeStrict [255] = none ∧
    parse_log_file [255] = .error .unicodeDecodeError :=
  ⟨rfl, c6_strict_decoding.1 [255] rfl⟩

/-- C6 counterexample: the input consisting of the single undecodable byte
0xFF is not processed to completion with substitution; the run fails with a
decode error. -/
theorem c6_counterexample : parse_log_file [255] = .error .unicodeDecodeError := rfl

/-- C5: the candidates line with list "100, 200, 300" appends exactly one
loss-series record with sentinel state -1, observations 3 and bandwidth
300000 bps (max candidate kbps × 1000); and a state -1 record never passes
the `state >= 0` filter feeding the per-state statistics. -/
theorem c5_candidates_record :
    ((parseLog ["[LossBWE-Candidates] Time: 50 ms, Candidate Bandwidths (kbps): 100, 200, 300"]).map
      (fun st => st.loss) =
      .ok [⟨50, -1, 300000, 3, some [.fin ⟨100, 1⟩, .fin ⟨200, 1⟩, .fin ⟨300, 1⟩]⟩]) ∧
    (∀ (l : List LossRec) (r : LossRec), r.state = -1 → r ∉ estimates_df l) := by
  refine ⟨rfl, ?_⟩
  intro l r hr hmem
  rw [estimates_df, List.mem_filter] at hmem
  rw [hr] at hmem
  exact absurd (of_decide_eq_true hmem.2) (by norm_num)

theorem c5_candidates_record_witness :
    (⟨50, -1, 300000, 3, some []⟩ : LossRec) ∉
      estimates_df [⟨50, -1, 300000, 3, some []⟩] :=
  c5_candidates_record.2 _ _ rfl

/-- C1 (amended): a line matching only the legacy probe-result grammar emits
one probe event exactly when the carry-forward timestamp is truthy — i.e.
some timestamp has been observed AND the most recent one is nonzero (Python
truthiness of `last_timestamp` also drops the event when the last observed
timestamp is 0) — and the emitted event carries that timestamp; otherwise
the line leaves the series untouched. -/
theorem c1_legacy_timestamp_guard
    (cs : List Char) (s : ParseState)
    (h1 : trendlineSearch cs = none) (h2 : rttSearch cs = none)
    (h3 : lossSearch cs = none) (h4 : candidatesSearch cs = none)
    (h5 : probeResultSearch cs = none) (h6 : probeSuccessSearch cs = none)
    (c e : Nat) (h7 : probeResultOldSearch cs = some (c, e)) :
    (∀ t : Nat, resolveTs s.lastTimestamp cs = some t → t ≠ 0 →
      processChars s cs = .ok { s with lastTimestamp := some t, probe := s.probe ++ [⟨t, c, e, .result_old⟩] }) ∧
    ((resolveTs s.lastTimestamp cs = none ∨ resolveTs s.lastTimestamp cs = some 0) →
      probeSuccessOldSearch cs = none → decisionSearch cs = none →
      constraintSearch cs = none → delayLimitSearch cs = none →
      receiverLimitSearch cs = none → pushbackSearch cs = none →
      processChars s cs = .ok { s with lastTimestamp := resolveTs s.lastTimestamp cs }) := by
  constructor
  · intro t ht htne
    simp only [processChars, h1, h2, h3, h4, h5, h6, ht, processLegacy, h7]
    have : truthyTs (some t) = true := by simp [truthyTs, htne]
    simp [this]
  · intro hts h8 h9 h10 h11 h12 h13
    have htr : truthyTs (resolveTs s.lastTimestamp cs) = false := by
      rcases hts with h | h <;> simp [h, truthyTs]
    simp only [processChars, h1, h2, h3, h4, h5, h6, processLegacy, h7, htr,
      processSuccessOld, h8, processSuccessOld.fallthrough, processTail,
      h9, h10, h11, h12, h13]
    simp

/-- C1 counterexample: after the line "Time: 0 ms start" a timestamp (0 ms)
has been observed, yet the following legacy probe line yields no probe
event. -/
theorem c1_counterexample :
    (parseLog ["Time: 0 ms start",
      "[ProbeBWE-Result] Cluster ID: 3, Final estimate: 5000 bps"]).map
      (fun st => (st.probe, st.lastTimestamp)) = .ok ([], some 0) := rfl

theorem c1_legacy_timestamp_guard_witness :
    processChars { initState with lastTimestamp := some 100 }
      "[ProbeBWE-Result] Cluster ID: 3, Final estimate: 5000 bps".data =
    .ok { initState with lastTimestamp := some 100, probe := [⟨100, 3, 5000, .result_old⟩] } := by
  have h := (c1_legacy_timestamp_guard
    "[ProbeBWE-Result] Cluster ID: 3, Final estimate: 5000 bps".data
    { initState with lastTimestamp := some 100 }
    rfl rfl rfl rfl rfl rfl 3 5000 rfl).1 100 rfl (by decide)
  simpa using h

/-! ## Auxiliary lemmas for the candidates parser -/

/-- Every character of a `split(',')` piece is a non-comma character of the
split string. -/
theorem splitComma_chars : ∀ (text : List Char) {tok : List Char} {ch : Char},
    tok ∈ splitComma text → ch ∈ tok → ch ∈ text ∧ ¬ch = ','
  | [], tok, ch, htok, hch => by
    simp [splitComma] at htok
    subst htok
    cases hch
  | c :: rest, tok, ch, htok, hch => by
    rw [splitComma] at htok
    by_cases hc : c = ','
    · rw [if_pos hc] at htok
      rcases List.mem_cons.mp htok with rfl | htok
      · cases hch
      · obtain ⟨hin, hne⟩ := splitComma_chars rest htok hch
        exact ⟨by simp [hin], hne⟩
    · rw [if_neg hc] at htok
      revert htok
      cases hsp : splitComma rest with
      | nil =>
        intro htok
        simp at htok
        subst htok
        rcases List.mem_cons.mp hch with rfl | hch'
        · exact ⟨by simp, hc⟩
        · cases hch'
      | cons t ts =>
        intro htok
        rcases List.mem_cons.mp htok with rfl | htok
        · rcases List.mem_cons.mp hch with rfl | hch
          · exact ⟨by simp, hc⟩
          · have := splitComma_chars rest (by simp [hsp]) hch
            exact ⟨by simp [this.1], this.2⟩
        · have := splitComma_chars rest (by simp [hsp, htok]) hch
          exact ⟨by simp [this.1], this.2⟩

/-- `strip()` of an all-whitespace string is empty. -/
theorem pyStrip_eq_nil (cs : List Char) (h : ∀ c ∈ cs, isPySpace c = true) :
    pyStrip cs = [] := by
  unfold pyStrip
  have h1 : cs.dropWhile isPySpace = [] := List.dropWhile_eq_nil_iff.mpr h
  simp [h1]

/-- C3 (amended): on a matched Trendline line the parse never fails and
substitutes 0.0 for text that `float()` cannot read in either numeric
field, and for the literal text "nan" in the modifiedTrend field; but a
threshold field whose captured text is "nan" is stored as NaN (Python's
`float('nan')` succeeds), not as 0.0. -/
theorem c3_trendline_nan_fields :
    trendValOf "nan".data = .fin ⟨0, 1⟩ ∧
    threshValOf "nan".data = PyFloat.nan ∧
    (∀ text : List Char, pyFloatParse text = none →
      trendValOf text = .fin ⟨0, 1⟩ ∧ threshValOf text = .fin ⟨0, 1⟩) ∧
    (∀ (s : ParseState) (cs : List Char) (t : Nat) (mt th st : List Char),
      trendlineSearch cs = some (t, mt, th, st) →
      processChars s cs = .ok { s with lastTimestamp := resolveTs s.lastTimestamp cs, trendline := s.trendline ++ [⟨t, trendValOf mt, threshValOf th, String.mk st⟩] }) := by
  refine ⟨rfl, rfl, ?_, ?_⟩
  · intro text h
    constructor
    · rw [trendValOf]
      split
      · rfl
      · rw [h]
    · rw [threshValOf, h]
  · intro s cs t mt th st h
    simp only [processChars, h]

/-- C3 counterexample: on the Trendline line whose two numeric fields are
both "nan", the emitted record's threshold is NaN, not the numeric 0.0 the
claim requires for both fields. -/
theorem c3_counterexample :
    (parseLog ["[Trendline] Time: 5 ms, Modified trend: nan, Threshold: nan, State: 0"]).map
      (fun st => st.trendline) =
    .ok [⟨5, .fin ⟨0, 1⟩, PyFloat.nan, "0"⟩] := rfl

theorem c3_trendline_nan_fields_witness :
    (trendValOf "abc".data = .fin ⟨0, 1⟩ ∧ threshValOf "abc".data = .fin ⟨0, 1⟩) ∧
    processChars initState "[Trendline] Time: 5 ms, Modified trend: abc, Threshold: 2.5, State: 1".data =
      .ok { initState with lastTimestamp := some 5, trendline := [⟨5, trendValOf "abc".data, threshValOf "2.5".data, "1"⟩] } := by
  constructor
  · exact c3_trendline_nan_fields.2.2.1 "abc".data rfl
  · have h := c3_trendline_nan_fields.2.2.2 initState
      "[Trendline] Time: 5 ms, Modified trend: abc, Threshold: 2.5, State: 1".data
      5 "abc".data "2.5".data "1".data rfl
    simpa using h

/-- C10 (amended): a matched candidates line whose captured candidate text
consists only of commas and whitespace does not raise — the empty-list
maximum is guarded — and appends one record with bandwidth 0, observations
0, sentinel state -1 and an empty candidates list. (A non-empty unparseable
token, by contrast, raises `ValueError`: see the counterexample.) -/
theorem c10_empty_candidates
    (cs : List Char) (t : Nat) (text : List Char)
    (hc : candidatesSearch cs = some (t, text))
    (h1 : trendlineSearch cs = none) (h2 : rttSearch cs = none)
    (h3 : lossSearch cs = none)
    (hws : ∀ ch ∈ text, ch = ',' ∨ isPySpace ch = true) :
    ∀ s : ParseState, processChars s cs =
      .ok { s with lastTimestamp := resolveTs s.lastTimestamp cs, loss := s.loss ++ [⟨t, -1, 0, 0, some []⟩] } := by
  have hclean : ∀ tok ∈ splitComma text, rstripCommas (pyStrip tok) = [] := by
    intro tok htok
    have hsp : ∀ ch ∈ tok, isPySpace ch = true := by
      intro ch hch
      obtain ⟨hin, hne⟩ := splitComma_chars text htok hch
      rcases hws ch hin with h | h
      · exact absurd h hne
      · exact h
    rw [pyStrip_eq_nil tok hsp]
    rfl
  have hcands : parseCandidates text = .ok [] := by
    simp only [parseCandidates]
    have hfil :
        (((splitComma text).map fun x => rstripCommas (pyStrip x)).filter
          fun x => !(x = [])) = [] := by
      rw [List.filter_eq_nil_iff]
      intro a ha
      rw [List.mem_map] at ha
      obtain ⟨tok, htok, rfl⟩ := ha
      simp [hclean tok htok]
    rw [hfil]
    rfl
  intro s
  simp only [processChars, h1, h2, h3, hc, hcands]
  rfl

/-- C10 counterexample: a candidates line whose captured text has a
non-empty token `float()` cannot read ("abc") makes the parse raise
`ValueError` — the run aborts instead of appending a guarded record. -/
theorem c10_counterexample :
    parseLog ["[LossBWE-Candidates] Time: 5 ms, Candidate Bandwidths (kbps): abc"] =
      .error .valueError := rfl

theorem c10_empty_candidates_witness :
    processChars initState "[LossBWE-Candidates] Time: 7 ms, Candidate Bandwidths (kbps): , ,  ,".data =
      .ok { initState with lastTimestamp := some 7, loss := [⟨7, -1, 0, 0, some []⟩] } := by
  have h := c10_empty_candidates
    "[LossBWE-Candidates] Time: 7 ms, Candidate Bandwidths (kbps): , ,  ,".data
    7 ", ,  ,".data rfl rfl rfl rfl (by decide) initState
  simpa using h

/-! ## Per-line event-count growth -/

theorem processTail_growth {s s' : ParseState} {cs : List Char}
    (h : processTail s cs = .ok s') : totalEvents s' ≤ totalEvents s + 1 := by
  unfold processTail at h
  cases hd : decisionSearch cs with
  | some caps =>
    simp only [hd] at h
    cases h
    simp [totalEvents] <;> omega
  | none =>
    simp only [hd] at h
    cases hc : constraintSearch cs with
    | some caps =>
      simp only [hc] at h
      cases h
      simp [totalEvents] <;> omega
    | none =>
      simp only [hc] at h
      cases hdl : delayLimitSearch cs with
      | some v =>
        obtain ⟨t, ol, nl, ct⟩ := v
        simp only [hdl] at h
        cases h
        simp [totalEvents] <;> omega
      | none =>
        simp only [hdl] at h
        cases hrl : receiverLimitSearch cs with
        | some v =>
          obtain ⟨t, ol, nl, ct⟩ := v
          simp only [hrl] at h
          cases h
          simp [totalEvents] <;> omega
        | none =>
          simp only [hrl] at h
          cases hpb : pushbackSearch cs with
          | some v =>
            obtain ⟨t, orr, pb, mb, red, ratio⟩ := v
            simp only [hpb] at h
            cases hfp : pyFloatParse ratio with
            | some rr =>
              simp only [hfp] at h
              cases h
              simp [totalEvents] <;> omega
            | none =>
              simp only [hfp] at h
              cases h
          | none =>
            simp only [hpb] at h
            cases h
            simp [totalEvents] <;> omega

theorem processSuccessOld_growth {s s' : ParseState} {cs : List Char}
    (h : processSuccessOld s cs = .ok s') : totalEvents s' ≤ totalEvents s + 1 := by
  unfold processSuccessOld processSuccessOld.fallthrough at h
  cases hso : probeSuccessOldSearch cs with
  | some v =>
    obtain ⟨cid, est⟩ := v
    simp only [hso] at h
    by_cases htr : truthyTs s.lastTimestamp = true
    · rw [if_pos htr] at h
      cases h
      simp [totalEvents] <;> omega
    · rw [if_neg htr] at h
      exact processTail_growth h
  | none =>
    simp only [hso] at h
    exact processTail_growth h

theorem processLegacy_growth {s s' : ParseState} {cs : List Char}
    (h : processLegacy s cs = .ok s') : totalEvents s' ≤ totalEvents s + 1 := by
  unfold processLegacy at h
  cases hro : probeResultOldSearch cs with
  | some v =>
    obtain ⟨cid, est⟩ := v
    simp only [hro] at h
    by_cases htr : truthyTs s.lastTimestamp = true
    · rw [if_pos htr] at h
      cases h
      simp [totalEvents] <;> omega
    · rw [if_neg htr] at h
      exact processSuccessOld_growth h
  | none =>
    simp only [hro] at h
    exact processSuccessOld_growth h

/-- Each loop iteration appends at most one record across all series. -/
theorem processChars_growth {s s' : ParseState} {cs : List Char}
    (h : processChars s cs = .ok s') : totalEvents s' ≤ totalEvents s + 1 := by
  have hbase : totalEvents { s with lastTimestamp := resolveTs s.lastTimestamp cs } =
      totalEvents s := by simp [totalEvents] <;> omega
  simp only [processChars] at h
  cases h1 : trendlineSearch cs with
  | some v =>
    obtain ⟨t, mt, th, st⟩ := v
    simp only [h1] at h
    cases h
    simp [totalEvents] <;> omega
  | none =>
    simp only [h1] at h
    cases h2 : rttSearch cs with
    | some v =>
      obtain ⟨t, p, c, l, a⟩ := v
      simp only [h2] at h
      cases h
      simp [totalEvents] <;> omega
    | none =>
      simp only [h2] at h
      cases h3 : lossSearch cs with
      | some v =>
        obtain ⟨t, st, bw, obs⟩ := v
        simp only [h3] at h
        cases h
        simp [totalEvents] <;> omega
      | none =>
        simp only [h3] at h
        cases h4 : candidatesSearch cs with
        | some v =>
          obtain ⟨t, text⟩ := v
          simp only [h4] at h
          cases h5 : parseCandidates text with
          | error e =>
            simp only [h5] at h
            cases h
          | ok cands =>
            simp only [h5] at h
            cases h6 : candidateBandwidth cands with
            | error e =>
              simp only [h6] at h
              cases h
            | ok bw =>
              simp only [h6] at h
              cases h
              simp [totalEvents] <;> omega
        | none =>
          simp only [h4] at h
          cases h7 : probeResultSearch cs with
          | some v =>
            obtain ⟨t, cid, est⟩ := v
            simp only [h7] at h
            cases h
            simp [totalEvents] <;> omega
          | none =>
            simp only [h7] at h
            cases h8 : probeSuccessSearch cs with
            | some v =>
              obtain ⟨t, cid, est⟩ := v
              simp only [h8] at h
              cases h
              simp [totalEvents] <;> omega
            | none =>
              simp only [h8] at h
              calc totalEvents s' ≤
                  totalEvents { s with lastTimestamp := resolveTs s.lastTimestamp cs } + 1 :=
                    processLegacy_growth h
                _ = totalEvents s + 1 := by rw [hbase]

/-- C4: on a line matched by both the timestamped and the legacy
probe-result grammars (and by no earlier pattern), exactly one probe event
is emitted, classified by the timestamped variant — source `result` with the
inline timestamp — and the legacy pattern does not also fire; and in
general every processed line appends at most one typed event across all
series. -/
theorem c4_timestamped_precedence
    (cs : List Char) (t cid est c2 e2 : Nat)
    (hts : probeResultSearch cs = some (t, cid, est))
    (hold : probeResultOldSearch cs = some (c2, e2))
    (h1 : trendlineSearch cs = none) (h2 : rttSearch cs = none)
    (h3 : lossSearch cs = none) (h4 : candidatesSearch cs = none) :
    (∀ s : ParseState, processChars s cs = .ok { s with lastTimestamp := resolveTs s.lastTimestamp cs, probe := s.probe ++ [⟨t, cid, est, .result⟩] }) ∧
    (∀ (s s' : ParseState) (l : List Char), processChars s l = .ok s' →
      totalEvents s' ≤ totalEvents s + 1) := by
  constructor
  · intro s
    simp only [processChars, h1, h2, h3, h4, hts]
  · intro s s' l h
    exact processChars_growth h

theorem c4_timestamped_precedence_witness :
    processChars initState "[ProbeBWE-Result] Time: 100 ms, Cluster ID: 3, Final estimate: 5000 bps and [ProbeBWE-Result] Cluster ID: 4, Final estimate: 6000 bps".data =
      .ok { initState with lastTimestamp := some 100, probe := [⟨100, 3, 5000, .result⟩] } := by
  have h := (c4_timestamped_precedence
    "[ProbeBWE-Result] Time: 100 ms, Cluster ID: 3, Final estimate: 5000 bps and [ProbeBWE-Result] Cluster ID: 4, Final estimate: 6000 bps".data
    100 3 5000 4 6000 rfl rfl rfl rfl rfl rfl).1 initState
  simpa using h

/-! ## C9: decision snapshots and the timestamp resolver -/

/-- Tail of a decision-snapshot line after the timestamp digits (note the
spaceless `ms`). -/
def decTail : List Char :=
  "ms | DelayState: Normal, DelayTargetBps: 1000 | RttBackoff: false | ProbeResultBps: 0 | BweTargetBps: 1000 | AckedBitrateBps: 900 | FinalTargetBps: 800 | DecisionReason: RttBackoff | Updated: true".data

/-- A line exactly matching the decision-snapshot grammar, with the
timestamp digit string as parameter. -/
def decLine (t : List Char) : List Char :=
  "[GCC-DECISION-SNAPSHOT] at ".data ++ t ++ decTail

theorem tsSearch_decLine {t : List Char} (h1 : t ≠ [])
    (h2 : ∀ c ∈ t, c.isDigit = true) : tsSearch (decLine t) = none := by
  have e : decLine t = "[GCC-DECISION-SNAPSHOT] ".data ++
      ('a' :: 't' :: ' ' :: (t ++ ('m' :: "s | DelayState: Normal, DelayTargetBps: 1000 | RttBackoff: false | ProbeResultBps: 0 | BweTargetBps: 1000 | AckedBitrateBps: 900 | FinalTargetBps: 800 | DecisionReason: RttBackoff | Updated: true".data))) := rfl
  rw [e, tsSearch_skip_seg (by decide)]
  rw [show tsSearch ('a' :: 't' :: ' ' ::
      (t ++ ('m' :: "s | DelayState: Normal, DelayTargetBps: 1000 | RttBackoff: false | ProbeResultBps: 0 | BweTargetBps: 1000 | AckedBitrateBps: 900 | FinalTargetBps: 800 | DecisionReason: RttBackoff | Updated: true".data))) =
    scanP tsAt ('a' :: 't' :: ' ' ::
      (t ++ ('m' :: "s | DelayState: Normal, DelayTargetBps: 1000 | RttBackoff: false | ProbeResultBps: 0 | BweTargetBps: 1000 | AckedBitrateBps: 900 | FinalTargetBps: 800 | DecisionReason: RttBackoff | Updated: true".data))) from rfl]
  rw [scanP_cons_none (tsAt_at_digits_noSpaceMs h1 h2)]
  rw [scanP_cons_none (tsAt_cons_none_of_ne (by decide) (by decide))]
  rw [scanP_cons_none (tsAt_cons_none_of_ne (by decide) (by decide))]
  rw [show scanP tsAt
      (t ++ ('m' :: "s | DelayState: Normal, DelayTargetBps: 1000 | RttBackoff: false | ProbeResultBps: 0 | BweTargetBps: 1000 | AckedBitrateBps: 900 | FinalTargetBps: 800 | DecisionReason: RttBackoff | Updated: true".data)) =
    tsSearch (t ++ ('m' :: "s | DelayState: Normal, DelayTargetBps: 1000 | RttBackoff: false | ProbeResultBps: 0 | BweTargetBps: 1000 | AckedBitrateBps: 900 | FinalTargetBps: 800 | DecisionReason: RttBackoff | Updated: true".data)) from rfl]
  rw [tsSearch_skip_digits h2]
  decide

theorem decisionSearch_decLine {t : List Char} (h1 : t ≠ [])
    (h2 : ∀ c ∈ t, c.isDigit = true) :
    decisionSearch (decLine t) = some ⟨digitsVal t, "Normal".data, 1000,
      "false".data, 0, 1000, 900, 800, "RttBackoff".data, "true".data⟩ := by
  have hK : decisionK (t ++ decTail) = some ⟨digitsVal t, "Normal".data, 1000,
      "false".data, 0, 1000, 900, 800, "RttBackoff".data, "true".data⟩ := by
    unfold decisionK
    rw [show decTail = 'm' :: "s | DelayState: Normal, DelayTargetBps: 1000 | RttBackoff: false | ProbeResultBps: 0 | BweTargetBps: 1000 | AckedBitrateBps: 900 | FinalTargetBps: 800 | DecisionReason: RttBackoff | Updated: true".data from rfl]
    simp only [digits1_append h1 h2 (show Char.isDigit 'm' = false from by decide)]
    rfl
  have hAt : decisionAt (decLine t) = some ⟨digitsVal t, "Normal".data, 1000,
      "false".data, 0, 1000, 900, 800, "RttBackoff".data, "true".data⟩ := by
    unfold decisionAt patAt decLine
    rw [List.append_assoc, matchLit_self]
    exact hK
  rw [show decLine t = '[' :: ("GCC-DECISION-SNAPSHOT] at ".data ++ (t ++ decTail)) from rfl] at hAt
  rw [show decisionSearch (decLine t) =
    scanP decisionAt ('[' :: ("GCC-DECISION-SNAPSHOT] at ".data ++ (t ++ decTail))) from rfl]
  exact scanP_cons_some hAt

set_option maxRecDepth 8192 in
theorem decLine_tail_bracketFree {t : List Char} (h2 : ∀ c ∈ t, c.isDigit = true) :
    ∀ c ∈ ("GCC-DECISION-SNAPSHOT] at ".data ++ (t ++ decTail)), ¬c = '[' := by
  intro c hc
  rcases List.mem_append.mp hc with h | h
  · have hall : ∀ x ∈ "GCC-DECISION-SNAPSHOT] at ".data, ¬x = '[' := by decide
    exact hall c h
  · rcases List.mem_append.mp h with h | h
    · exact ne_of_digit (h2 c h) (by decide)
    · have hall : ∀ x ∈ decTail, ¬x = '[' := by decide
      exact hall c h

/-- C9: a line exactly matching the decision-snapshot grammar never updates
the carry-forward timestamp — its `at <N>ms` has no space before `ms`, so
the resolver (which only accepts `Time: N ms` / `at N ms`) fails on it —
and consequently a legacy probe line preceded only by decision snapshots is
dropped. (The snapshot's non-timestamp fields are fixed to representative
token values; the timestamp digit string is universally quantified.) -/
theorem c9_snapshot_never_updates_timestamp (t : List Char) (h1 : t ≠ [])
    (h2 : ∀ c ∈ t, c.isDigit = true) :
    decisionSearch (decLine t) = some ⟨digitsVal t, "Normal".data, 1000,
      "false".data, 0, 1000, 900, 800, "RttBackoff".data, "true".data⟩ ∧
    tsSearch (decLine t) = none ∧
    (∀ s : ParseState, processChars s (decLine t) = .ok { s with decision := s.decision ++ [⟨digitsVal t, "RttBackoff"⟩] }) ∧
    parse_lines initState [decLine "500".data,
      "[ProbeBWE-Result] Cluster ID: 3, Final estimate: 5000 bps".data] =
      .ok { initState with decision := [⟨500, "RttBackoff"⟩] } := by
  have hbf := decLine_tail_bracketFree h2
  have e : decLine t = '[' :: ("GCC-DECISION-SNAPSHOT] at ".data ++ (t ++ decTail)) := rfl
  have hTrend : trendlineSearch (decLine t) = none := by
    rw [e]; exact search_single_bracket rfl hbf
  have hRtt : rttSearch (decLine t) = none := by
    rw [e]; exact search_single_bracket rfl hbf
  have hLoss : lossSearch (decLine t) = none := by
    rw [e]; exact search_single_bracket rfl hbf
  have hCand : candidatesSearch (decLine t) = none := by
    rw [e]; exact search_single_bracket rfl hbf
  have hPR : probeResultSearch (decLine t) = none := by
    rw [e]; exact search_single_bracket rfl hbf
  have hPS : probeSuccessSearch (decLine t) = none := by
    rw [e]; exact search_single_bracket rfl hbf
  have hPRO : probeResultOldSearch (decLine t) = none := by
    rw [e]; exact search_single_bracket rfl hbf
  have hPSO : probeSuccessOldSearch (decLine t) = none := by
    rw [e]; exact search_single_bracket rfl hbf
  have hts := tsSearch_decLine h1 h2
  have hdec := decisionSearch_decLine h1 h2
  refine ⟨hdec, hts, ?_, rfl⟩
  intro s
  simp only [processChars, resolveTs, hts, hTrend, hRtt, hLoss, hCand, hPR, hPS,
    processLegacy, hPRO, processSuccessOld, hPSO, processSuccessOld.fallthrough,
    processTail, hdec]

theorem c9_snapshot_never_updates_timestamp_witness :
    processChars initState (decLine "500".data) =
      .ok { initState with decision := [⟨500, "RttBackoff"⟩] } := by
  have h := (c9_snapshot_never_updates_timestamp "500".data (by decide)
    (by decide)).2.2.1 initState
  have e : digitsVal "500".data = 500 := rfl
  rw [e] at h
  simpa using h
